import Mathlib

/-!
Verification of the Inside-Airbnb SQL ETL warehouse loader.

Shallow embedding of the Python/SQL load pipeline:
  - modules/data_cleaner.py : filename geography and host-location parsers;
  - modules/data_loader.py : field sanitizers, the staging batch loader,
    the server-side merge-and-promote script for listings, the reviews
    cap and retry loop;
  - scripts/debug/ensure_dim_dates_for_sample.py : the weekly calendar
    aggregation SQL.

Python strings are modelled as Lean `String` values, manipulated through
explicit `List Char` primitives so that every definition reduces in the
kernel.  `NULL` / `NaN` values are modelled with `Option`.
-/

namespace AirbnbETL

/-! ## Character-list string primitives (Python / T-SQL semantics) -/

/-- Python `str.strip` whitespace set (ASCII part). -/
def isPySpace (c : Char) : Bool :=
  c = ' ' || c = '\t' || c = '\n' || c = '\x0d' || c = '\x0b' || c = '\x0c'

/-- Python `str.strip`: drop leading and trailing whitespace. -/
def pyStripChars (l : List Char) : List Char :=
  ((l.dropWhile isPySpace).reverse.dropWhile isPySpace).reverse

/-- Python `str.strip` on a `String`. -/
def pyStrip (s : String) : String :=
  ⟨pyStripChars s.data⟩

/-- T-SQL `LTRIM(RTRIM(...))` / implicit numeric-cast trimming: SQL trims
only the space character, not tabs or newlines. -/
def sqlTrimChars (l : List Char) : List Char :=
  ((l.dropWhile (· = ' ')).reverse.dropWhile (· = ' ')).reverse

/-- Fuel-driven core of Python `str.replace(old, new)`: left-to-right,
non-overlapping.  The fuel is an upper bound on the number of characters
consumed; structural recursion keeps the definition kernel-reducible. -/
def replaceAllFuel (p r : List Char) : Nat → List Char → List Char
  | 0, l => l
  | _ + 1, [] => []
  | fuel + 1, c :: rest =>
    if p ≠ [] ∧ p.isPrefixOf (c :: rest) then
      r ++ replaceAllFuel p r fuel ((c :: rest).drop p.length)
    else
      c :: replaceAllFuel p r fuel rest

/-- Python `str.replace(old, new)` on char lists (all occurrences). -/
def replaceAll (p r l : List Char) : List Char :=
  replaceAllFuel p r l.length l

/-- Python `','.join(...)` style separator join. -/
def joinSep (sep : List Char) : List (List Char) → List Char
  | [] => []
  | [x] => x
  | x :: y :: xs => x ++ sep ++ joinSep sep (y :: xs)

/-- Python `str.split(sep)` for a one-character separator. -/
def splitOnChar (sep : Char) (l : List Char) : List (List Char) :=
  l.foldr
    (fun c acc =>
      if c = sep then [] :: acc
      else
        match acc with
        | [] => [[c]]
        | a :: rest => (c :: a) :: rest)
    [[]]

/-- Does the char list end with `".0"`?  (Python `s.endswith('.0')`.) -/
def endsDotZero (l : List Char) : Bool :=
  match l.reverse with
  | c1 :: c2 :: _ => c1 == '0' && c2 == '.'
  | _ => false

/-- Does the char list end with `".0.0"`? -/
def endsDotZeroTwice (l : List Char) : Bool :=
  match l.reverse with
  | c1 :: c2 :: c3 :: c4 :: _ => c1 == '0' && c2 == '.' && c3 == '0' && c4 == '.'
  | _ => false

/-- Python `s[:-2]`, written via `reverse`/`drop` so the connection with
`endsDotZero` is immediate. -/
def dropLast2 (l : List Char) : List Char :=
  (l.reverse.drop 2).reverse

/-! ## Field sanitizers (modules/data_loader.py, _load_listings_data) -/

/-- `sanitize_str` from `_load_listings_data`: `None` for `NaN`, strip,
truncate to `maxlen`, empty becomes `None`. -/
def sanitize_str (maxlen : Nat) (val : Option String) : Option String :=
  match val with
  | none => none
  | some v =>
    let s := pyStripChars v.data
    if s = [] then none else some ⟨s.take maxlen⟩

/-- `sanitize_numstr` from `_load_listings_data`: `None` for `NaN`, strip,
remove all `','`, strip one trailing `".0"`, empty becomes `None`. -/
def sanitize_numstr (val : Option String) : Option String :=
  match val with
  | none => none
  | some v =>
    let s := pyStripChars v.data
    let s := s.filter (fun c => c != ',')
    let s := if endsDotZero s then dropLast2 s else s
    if s = [] then none else some ⟨s⟩

/-- `sanitize_price` from `_load_listings_data`: strip, remove `'$'` and
`','` characters. -/
def sanitize_price (val : Option String) : Option String :=
  match val with
  | none => none
  | some v =>
    let s := pyStripChars v.data
    some ⟨(s.filter (fun c => c != '$')).filter (fun c => c != ',')⟩

/-- `norm_bool` from `_load_listings_data`. -/
def norm_bool (val : Option String) : Option String :=
  match val with
  | none => none
  | some v =>
    let sv : List Char := pyStripChars v.data
    let low : List Char := sv.map Char.toLower
    if low = "true".data ∨ low = "1".data ∨ low = "t".data ∨ low = "y".data ∨ low = "yes".data then
      some "True"
    else if low = "false".data ∨ low = "0".data ∨ low = "f".data ∨ low = "n".data ∨ low = "no".data then
      some "False"
    else
      some ⟨sv⟩

/-! ## T-SQL cast models -/

/-- Value of a digit list (most significant first). -/
def digitsVal (l : List Char) : Nat :=
  l.foldl (fun a c => 10 * a + (c.toNat - 48)) 0

/-- `TRY_CAST(s AS BIGINT)` on an `NVARCHAR` value: SQL Server trims
spaces, accepts an optional sign followed by decimal digits only, maps
the empty string to `0`, and yields `NULL` on malformed input or
overflow of the signed 64-bit range. -/
def tryCastBigint (s : String) : Option Int :=
  match sqlTrimChars s.data with
  | [] => some 0
  | c :: rest =>
    let signed : Bool × List Char :=
      if c = '-' then (true, rest)
      else if c = '+' then (false, rest)
      else (false, c :: rest)
    let ds := signed.2
    if ds = [] ∨ ¬ ds.all Char.isDigit then none
    else
      let v : Int := if signed.1 then -(digitsVal ds : Int) else (digitsVal ds : Int)
      if -(2 ^ 63) ≤ v ∧ v ≤ 2 ^ 63 - 1 then some v else none

/-- `TRY_CAST(s AS DECIMAL(p, sc))` on an `NVARCHAR` value: trims spaces,
accepts `[sign] digits [. digits]` with at least one digit, rounds half
away from zero to scale `sc`, and yields `NULL` on malformed input or
when the rounded magnitude needs more than `p` digits. -/
def tryCastDecimal (p sc : Nat) (s : String) : Option ℚ :=
  match sqlTrimChars s.data with
  | [] => none
  | c :: rest =>
    let signed : Bool × List Char :=
      if c = '-' then (true, rest)
      else if c = '+' then (false, rest)
      else (false, c :: rest)
    let body := signed.2
    let intPart := body.takeWhile (fun d => ¬ (d = '.'))
    let tail := body.dropWhile (fun d => ¬ (d = '.'))
    let fracPart := tail.drop 1
    if intPart.all Char.isDigit ∧ fracPart.all Char.isDigit ∧
        ¬ (intPart = [] ∧ fracPart = []) ∧ ¬ ('.' ∈ fracPart) ∧ ¬ (body = []) then
      let n := digitsVal (intPart ++ fracPart)
      let e := fracPart.length
      let rounded := (n * 10 ^ sc * 2 + 10 ^ e) / (2 * 10 ^ e)
      if rounded < 10 ^ p then
        some ((if signed.1 then -(rounded : Int) else (rounded : Int) : Int) / (10 ^ sc : ℚ))
      else none
    else none

/-- `LEFT(s, n)` on `NVARCHAR`. -/
def sqlLeft (n : Nat) (s : String) : String :=
  ⟨s.data.take n⟩

/-- `SUBSTRING(s, start, len)` on `NVARCHAR` (1-based `start`). -/
def sqlSubstring (start len : Nat) (s : String) : String :=
  ⟨(s.data.drop (start - 1)).take len⟩

/-- `REPLACE(s, pat, rep)`. -/
def sqlReplace (pat rep : String) (s : String) : String :=
  ⟨replaceAll pat.data rep.data s.data⟩

/-! ## Warehouse data model (staging, dim_listings, dim_listing_id_map) -/

/-- One row of `dim_listings_staging`: all fifteen columns are `NVARCHAR`
(text), `NULL` modelled as `none`.  Field order matches the
`INSERT INTO dim_listings_staging (...)` column list. -/
structure StagingRow where
  listing_id : Option String
  host_id : Option String
  host_name : Option String
  host_city : Option String
  host_country : Option String
  property_country : Option String
  property_city : Option String
  property_neighbourhood : Option String
  latitude : Option String
  longitude : Option String
  price : Option String
  number_of_reviews : Option String
  review_scores_rating : Option String
  calculated_host_listings_count : Option String
  is_local_host : Option String
deriving DecidableEq, Repr

/-- One row of `dim_listings` (the typed dimension table), with the
fourteen columns written by the MERGE statement. -/
structure DimRow where
  listing_id : Int
  host_id : Option Int
  host_name : Option String
  host_city : Option String
  host_country : Option String
  property_country : Option String
  property_city : Option String
  property_neighbourhood : Option String
  latitude : Option ℚ
  longitude : Option ℚ
  price : Option ℚ
  number_of_reviews : Option Int
  review_scores_rating : Option ℚ
  calculated_host_listings_count : Option Int
deriving DecidableEq, Repr

/-- One row of `dim_listing_id_map`. -/
structure IdMapRow where
  listing_id : Option Int
  listing_raw_id : Option String
  part1 : Option String
  part2 : Option String
  part3 : Option String
deriving DecidableEq, Repr

/-- Warehouse state touched by the listings merge-and-promote script. -/
structure Warehouse where
  dim_listings : List DimRow
  dim_listing_id_map : List IdMapRow
  dim_listings_staging : List StagingRow
deriving DecidableEq, Repr

/-- The `USING ( SELECT TRY_CAST(...) ... FROM dim_listings_staging
WHERE TRY_CAST(listing_id AS BIGINT) IS NOT NULL )` source of the MERGE:
one typed row per staging row whose `listing_id` casts to BIGINT. -/
def mkDimRow (k : Int) (r : StagingRow) : DimRow :=
  { listing_id := k
    host_id := r.host_id.bind tryCastBigint
    host_name := r.host_name
    host_city := r.host_city
    host_country := r.host_country
    property_country := r.property_country
    property_city := r.property_city
    property_neighbourhood := r.property_neighbourhood
    latitude := r.latitude.bind (tryCastDecimal 9 6)
    longitude := r.longitude.bind (tryCastDecimal 9 6)
    price := r.price.bind (fun s =>
      tryCastDecimal 10 2 (sqlReplace "," "" (sqlReplace "$" "" s)))
    number_of_reviews := r.number_of_reviews.bind tryCastBigint
    review_scores_rating := r.review_scores_rating.bind (tryCastDecimal 5 2)
    calculated_host_listings_count :=
      r.calculated_host_listings_count.bind tryCastBigint }

/-- The MERGE source rows obtained from the staging table. -/
def mergeSource (staging : List StagingRow) : List DimRow :=
  staging.filterMap (fun r =>
    (r.listing_id.bind tryCastBigint).map (fun k => mkDimRow k r))

/-- `WHEN MATCHED THEN UPDATE SET ...`: every column except the key is
overwritten from the source row. -/
def applyUpdate (d src : DimRow) : DimRow :=
  { listing_id := d.listing_id
    host_id := src.host_id
    host_name := src.host_name
    host_city := src.host_city
    host_country := src.host_country
    property_country := src.property_country
    property_city := src.property_city
    property_neighbourhood := src.property_neighbourhood
    latitude := src.latitude
    longitude := src.longitude
    price := src.price
    number_of_reviews := src.number_of_reviews
    review_scores_rating := src.review_scores_rating
    calculated_host_listings_count := src.calculated_host_listings_count }

/-- `MERGE INTO dim_listings ... ON target.listing_id = src.listing_id`:
matched target rows are updated from the source, unmatched source rows
are inserted. -/
def mergeListings (target src : List DimRow) : List DimRow :=
  (target.map (fun d =>
    match src.find? (fun s0 => s0.listing_id == d.listing_id) with
    | some s0 => applyUpdate d s0
    | none => d)) ++
  src.filter (fun s0 => ! target.any (fun d => d.listing_id == s0.listing_id))

/-- The unconditional `INSERT INTO dim_listing_id_map` row built from one
staging row: raw id preserved verbatim, plus `LEFT(listing_id, 6)`,
`SUBSTRING(listing_id, 7, 6)` and `SUBSTRING(listing_id, 13, 6)`. -/
def mkIdMapRow (r : StagingRow) : IdMapRow :=
  { listing_id := r.listing_id.bind tryCastBigint
    listing_raw_id := r.listing_id
    part1 := r.listing_id.map (sqlLeft 6)
    part2 := r.listing_id.map (sqlSubstring 7 6)
    part3 := r.listing_id.map (sqlSubstring 13 6) }

/-- The three DML steps of the server-side `move_sql` transaction. -/
inductive MoveStep where
  | merge
  | idmap
  | trunc
deriving DecidableEq, Repr

/-- Effect of the MERGE statement on the warehouse. -/
def applyMerge (w : Warehouse) : Warehouse :=
  { w with dim_listings :=
      mergeListings w.dim_listings (mergeSource w.dim_listings_staging) }

/-- Effect of the id-map INSERT (no WHERE clause: every staging row). -/
def applyIdMap (w : Warehouse) : Warehouse :=
  { w with dim_listing_id_map :=
      w.dim_listing_id_map ++ w.dim_listings_staging.map mkIdMapRow }

/-- Effect of `TRUNCATE TABLE dim_listings_staging`. -/
def applyTrunc (w : Warehouse) : Warehouse :=
  { w with dim_listings_staging := [] }

/-- The `move_sql` script of `_load_listings_data`:
`BEGIN TRY; BEGIN TRANSACTION; MERGE ...; INSERT dim_listing_id_map ...;
TRUNCATE ...; COMMIT; END TRY BEGIN CATCH ROLLBACK; THROW; END CATCH`.
`fails` says which statement the server rejects (if any); the result is
the thrown/ok outcome paired with the committed warehouse state the
client observes afterwards.  Uncommitted work is rolled back, so on any
failure the observable state is the initial one. -/
def runMoveScript (fails : MoveStep → Bool) (w : Warehouse) :
    Except Unit Warehouse × Warehouse :=
  let committed := w
  if fails .merge then (.error (), committed)
  else
    let cur1 := applyMerge w
    if fails .idmap then (.error (), committed)
    else
      let cur2 := applyIdMap cur1
      if fails .trunc then (.error (), committed)
      else
        let cur3 := applyTrunc cur2
        (.ok cur3, cur3)

/-- Successful promotion of the staging table (the no-failure run). -/
def promote (w : Warehouse) : Warehouse :=
  (runMoveScript (fun _ => false) w).2

/-- Loading one cleaned listings file whose sanitized rows are
`fileRows`: staging is truncated, re-filled with the file's rows, then
the move script runs. -/
def loadListingsFile (fileRows : List StagingRow) (w : Warehouse) : Warehouse :=
  promote { w with dim_listings_staging := fileRows }

/-! ## Staging batch loader (modules/data_loader.py lines 208-228) -/

/-- The fifteen column values of a staging row, in insert order. -/
def rowFields (r : StagingRow) : List (Option String) :=
  [r.listing_id, r.host_id, r.host_name, r.host_city, r.host_country,
   r.property_country, r.property_city, r.property_neighbourhood,
   r.latitude, r.longitude, r.price, r.number_of_reviews,
   r.review_scores_rating, r.calculated_host_listings_count,
   r.is_local_host]

/-- The skipped-rows log line for one row:
`','.join(str(x) if x is not None else '' for x in single)`. -/
def commaJoinRow (r : StagingRow) : String :=
  ⟨joinSep [','] ((rowFields r).map (fun o => (o.getD "").data))⟩

/-- Fuel-driven batch loop: rows are submitted in slices of 500
(`batch_size = 500`); a failing batch is retried row by row and rows
that fail singly are appended to the skipped-rows log.  Returns the rows
inserted into staging and the log lines, in order.  The fuel (one unit
per batch) only makes the recursion structural; `stageRows` supplies
enough for the whole list. -/
def stageRowsFuel (batchFails : List StagingRow → Bool)
    (rowFails : StagingRow → Bool) :
    Nat → List StagingRow → List StagingRow × List String
  | _, [] => ([], [])
  | 0, _ => ([], [])
  | fuel + 1, rows =>
    let batch := rows.take 500
    let rest := rows.drop 500
    let first : List StagingRow × List String :=
      if batchFails batch then
        (batch.filter (fun r => ! rowFails r),
         (batch.filter (fun r => rowFails r)).map commaJoinRow)
      else (batch, [])
    let next := stageRowsFuel batchFails rowFails fuel rest
    (first.1 ++ next.1, first.2 ++ next.2)

/-- The staging insert loop of `_load_listings_data`, parameterised by
which bulk batches fail (`batchFails`) and which rows fail even when
inserted singly (`rowFails`). -/
def stageRows (batchFails : List StagingRow → Bool)
    (rowFails : StagingRow → Bool) (rows : List StagingRow) :
    List StagingRow × List String :=
  stageRowsFuel batchFails rowFails (rows.length + 1) rows

/-! ## Reviews cap and retry loop (modules/data_loader.py lines 427-476) -/

/-- Row count of a reviews dataframe after the 80% cap:
`if original_rows > 200000: df = df.sample(n=int(original_rows * 0.8))`.
`int(n * 0.8)` is modelled as `n * 8 / 10` (floor). -/
def capReviewCount (n : Nat) : Nat :=
  if n > 200000 then n * 8 / 10 else n

/-- Outcome of one `cursor.execute(sql_script)` attempt. -/
inductive AttemptOutcome where
  | ok
  | connErr
  | otherErr
deriving DecidableEq, Repr

/-- Observable events of the reviews retry loop, tagged with the
attempt index. -/
inductive REvent where
  | execute (attempt : Nat)
  | commit (attempt : Nat)
  | reconnect (attempt : Nat)
  | rollback (attempt : Nat)
deriving DecidableEq, Repr

/-- `for attempt in range(3)` body of `_load_reviews_data`: success
commits and breaks; a connection error on a non-final attempt reconnects
and retries; any other failure rolls back and either retries or, on the
last attempt, re-raises.  Recursion is over the remaining attempt
indices; the Bool result is whether the error was raised out of the
loop. -/
def reviewsRetryLoop (outcome : Nat → AttemptOutcome) :
    List Nat → List REvent × Bool
  | [] => ([], false)
  | attempt :: restAttempts =>
    match outcome attempt with
    | .ok => ([.execute attempt, .commit attempt], false)
    | .connErr =>
      if attempt < 3 - 1 then
        let next := reviewsRetryLoop outcome restAttempts
        (.execute attempt :: .reconnect attempt :: next.1, next.2)
      else if attempt + 1 = 3 then
        ([.execute attempt, .rollback attempt], true)
      else
        let next := reviewsRetryLoop outcome restAttempts
        (.execute attempt :: .rollback attempt :: next.1, next.2)
    | .otherErr =>
      if attempt + 1 = 3 then
        ([.execute attempt, .rollback attempt], true)
      else
        let next := reviewsRetryLoop outcome restAttempts
        (.execute attempt :: .rollback attempt :: next.1, next.2)

/-- The reviews retry loop with `max_retries = 3`. -/
def runReviewsRetry (outcome : Nat → AttemptOutcome) : List REvent × Bool :=
  reviewsRetryLoop outcome [0, 1, 2]

/-! ## Calendar weekly aggregation
(scripts/debug/ensure_dim_dates_for_sample.py, insert_calendar) -/

/-- One staged calendar row.  `date` is the row's date as a day number
with day 0 = 1900-01-01 (a Monday), the anchor date `0` of T-SQL;
it models `CONVERT(DATE, c.date)`. -/
structure CalRow where
  listing_id : String
  date : Nat
  available : String
  price : String
deriving DecidableEq, Repr

/-- `DATEADD(wk, DATEDIFF(wk, 0, d), 0)` for day number `n`:
`DATEDIFF(wk)` counts Saturday-to-Sunday boundaries since day 0, namely
`(n + 1) / 7`. -/
def weekStartSql (n : Nat) : Nat :=
  7 * ((n + 1) / 7)

/-- Modelled from the spec: "week-start = Monday of the row's date",
i.e. the Monday of the Monday-started week containing day `n`
(day 0 = 1900-01-01 is a Monday). -/
def mondayOf (n : Nat) : Nat :=
  n - n % 7

/-- `TRY_CAST(REPLACE(REPLACE(LTRIM(RTRIM(c.price)), '$', ''), ',', '')
AS DECIMAL(10,2))`. -/
def calPrice (r : CalRow) : Option ℚ :=
  tryCastDecimal 10 2
    ⟨replaceAll [','] [] (replaceAll ['$'] [] (sqlTrimChars r.price.data))⟩

/-- `LOWER(LTRIM(RTRIM(c.available))) IN ('t', 'true', '1')`. -/
def calAvailable (r : CalRow) : Bool :=
  let low := (sqlTrimChars r.available.data).map Char.toLower
  low == "t".data || low == "true".data || low == "1".data

/-- The rows that survive the `JOIN dim_listings l ON
TRY_CAST(c.listing_id AS BIGINT) = l.listing_id`. -/
def joinedCalRows (dimKeys : List Int) (rows : List CalRow) : List CalRow :=
  rows.filter (fun r =>
    match tryCastBigint r.listing_id with
    | some k => dimKeys.contains k
    | none => false)

/-- The rows of one GROUP BY bucket, keyed by casted listing id and
week-start day. -/
def bucketRows (dimKeys : List Int) (rows : List CalRow) (k : Int) (w : Nat) :
    List CalRow :=
  (joinedCalRows dimKeys rows).filter (fun r =>
    tryCastBigint r.listing_id == some k && weekStartSql r.date == w)

/-- One row of `fact_calendar`. -/
structure FactCalRow where
  listing_id : Int
  week_start_date : Nat
  week_end_date : Nat
  avg_price_per_week : Option ℚ
  available_days_per_week : Nat
deriving DecidableEq, Repr, Inhabited

/-- `AVG(...)`: SQL aggregate mean, `NULL` price rows ignored, `NULL`
when no non-null price exists in the group. -/
def avgPrice (grp : List CalRow) : Option ℚ :=
  let ps := grp.filterMap calPrice
  if ps.isEmpty then none else some (ps.sum / ps.length)

/-- The `insert_calendar` SELECT: one aggregated output row per distinct
(listing id, week-start) key among the joined rows, with the weekly
average price and available-day count. -/
def aggCalendar (dimKeys : List Int) (rows : List CalRow) : List FactCalRow :=
  (((joinedCalRows dimKeys rows).filterMap (fun r =>
      (tryCastBigint r.listing_id).map
        (fun k => (k, weekStartSql r.date)))).dedup).map
    (fun kw =>
      let grp := bucketRows dimKeys rows kw.1 kw.2
      { listing_id := kw.1
        week_start_date := kw.2
        week_end_date := kw.2 + 6
        avg_price_per_week := avgPrice grp
        available_days_per_week := (grp.filter (fun r => calAvailable r)).length })

/-! ## Cleaner parsers (modules/data_cleaner.py) -/

/-- `os.path.basename` (POSIX separator). -/
def basenameChars (l : List Char) : List Char :=
  (splitOnChar '/' l).getLastD []

/-- `infer_geography_from_filename`: strip the basename's `.csv.gz`,
split on underscores; with at least four parts, return
`(city, country) = (parts[1], parts[0])` (each with `'_'` replaced by a
space, a no-op on split pieces), otherwise `("Unknown", "Unknown")`. -/
def infer_geography_from_filename (filename : String) : String × String :=
  let basename := basenameChars filename.data
  let name_without_ext := replaceAll ".csv.gz".data [] basename
  let parts := splitOnChar '_' name_without_ext
  if parts.length ≥ 4 then
    let country := replaceAll ['_'] [' '] ((parts.get? 0).getD [])
    let city := replaceAll ['_'] [' '] ((parts.get? 1).getD [])
    (⟨city⟩, ⟨country⟩)
  else
    ("Unknown", "Unknown")

/-- `parse_host_location`: `NaN`/empty input yields
`("Unknown", "Unknown")`; otherwise split on `','`, strip each part and
drop empty parts; two or more parts yield
`(', '.join(parts[:-1]), parts[-1])`, exactly one part yields
`("Unknown", parts[0])`, none yields `("Unknown", "Unknown")`. -/
def parse_host_location (location_string : Option String) : String × String :=
  match location_string with
  | none => ("Unknown", "Unknown")
  | some ls =>
    if ls = "" then ("Unknown", "Unknown")
    else
      let parts := ((splitOnChar ',' ls.data).map pyStripChars).filter
        (fun p => ! p.isEmpty)
      if parts.length ≥ 2 then
        (⟨joinSep [',', ' '] parts.dropLast⟩, ⟨(parts.getLast?).getD []⟩)
      else if parts.length = 1 then
        ("Unknown", ⟨(parts.head?).getD []⟩)
      else
        ("Unknown", "Unknown")

/-! ## Helper lemmas -/

theorem endsDotZero_iff (l : List Char) :
    endsDotZero l = true ↔ ∃ t, l.reverse = '0' :: '.' :: t := by
  rcases hrev : l.reverse with _ | ⟨c1, _ | ⟨c2, t⟩⟩ <;>
    simp [endsDotZero, hrev, and_assoc]

theorem endsDotZeroTwice_iff (l : List Char) :
    endsDotZeroTwice l = true ↔ ∃ t, l.reverse = '0' :: '.' :: '0' :: '.' :: t := by
  rcases hrev : l.reverse with _ | ⟨c1, _ | ⟨c2, _ | ⟨c3, _ | ⟨c4, t⟩⟩⟩⟩ <;>
    simp [endsDotZeroTwice, hrev, and_assoc]

theorem dropWhile_append_singleton_space (l : List Char) :
    (l ++ [' ']).dropWhile isPySpace = l.dropWhile isPySpace ++ [' '] ∨
    (l.dropWhile isPySpace = [] ∧ (l ++ [' ']).dropWhile isPySpace = []) := by
  induction l with
  | nil =>
    right
    constructor
    · rfl
    · simp [List.dropWhile, isPySpace]
  | cons c t ih =>
    by_cases hc : isPySpace c = true
    · simpa [List.dropWhile_cons, hc] using ih
    · left
      simp [List.dropWhile_cons, hc]

theorem pyStripChars_surround_space (l : List Char) :
    pyStripChars (' ' :: (l ++ [' '])) = pyStripChars l := by
  have hsp : isPySpace ' ' = true := rfl
  unfold pyStripChars
  rw [List.dropWhile_cons_of_pos hsp]
  rcases dropWhile_append_singleton_space l with h | ⟨h1, h2⟩
  · rw [h, List.reverse_append]
    simp [List.dropWhile_cons_of_pos hsp]
  · rw [h1, h2]

theorem mem_of_mem_dropLast2 (l : List Char) (c : Char) (h : c ∈ dropLast2 l) :
    c ∈ l := by
  unfold dropLast2 at h
  rw [List.mem_reverse] at h
  have := List.mem_of_mem_drop h
  rwa [List.mem_reverse] at this

/-! ## C5: reviews 80% cap boundary -/

/-- C5: a reviews file is downsampled iff its row count strictly exceeds
200,000; the capped count is the floor of 80% of the original count;
200,001 rows become 160,000 and 200,000 rows stay 200,000. -/
theorem reviews_cap_boundary :
    (∀ n : Nat, capReviewCount n = n ↔ n ≤ 200000) ∧
    (∀ n : Nat, 200000 < n →
      10 * capReviewCount n ≤ 8 * n ∧ 8 * n < 10 * (capReviewCount n + 1)) ∧
    capReviewCount 200001 = 160000 ∧
    capReviewCount 200000 = 200000 := by
  refine ⟨?_, ?_, by decide, by decide⟩
  · intro n
    unfold capReviewCount
    split <;> omega
  · intro n h
    unfold capReviewCount
    split <;> omega

/-- Witness for C5 at the boundary inputs. -/
theorem reviews_cap_boundary_witness :
    capReviewCount 200000 = 200000 ∧ 10 * capReviewCount 200001 ≤ 8 * 200001 :=
  ⟨(reviews_cap_boundary.1 200000).mpr (by decide),
   (reviews_cap_boundary.2.1 200001 (by decide)).1⟩

/-! ## C6: numeric-string sanitizer -/

/-- The trimmed, comma-stripped intermediate value of `sanitize_numstr`. -/
def midOf (s : String) : List Char :=
  (pyStripChars s.data).filter (fun c => c != ',')

theorem sanitize_numstr_some (s : String) :
    sanitize_numstr (some s) =
      (if (if endsDotZero (midOf s) = true then dropLast2 (midOf s) else midOf s) = []
       then none
       else some ⟨if endsDotZero (midOf s) = true then dropLast2 (midOf s) else midOf s⟩) :=
  rfl

/-- C6 counterexample: the claim says the sanitizer's output never ends
with ".0", but `sanitize_numstr "1.0.0"` strips only one ".0" suffix and
returns "1.0", which ends with ".0". -/
theorem sanitize_numstr_claim_false :
    sanitize_numstr (some "1.0.0") = some "1.0" ∧
    endsDotZero ("1.0".data) = true := by
  decide

/-- C6 (amended): the sanitizer maps NaN to the null marker, is invariant
under surrounding whitespace, and otherwise produces either the null
marker or a nonempty string with no commas; one trailing ".0" suffix is
removed, so the output ends with ".0" only when the trimmed,
comma-stripped input ended with ".0.0". -/
theorem sanitize_numstr_amended :
    (sanitize_numstr none = none) ∧
    (∀ s : String,
      sanitize_numstr (some ⟨' ' :: (s.data ++ [' '])⟩) =
        sanitize_numstr (some s)) ∧
    (∀ (s : String) (out : String), sanitize_numstr (some s) = some out →
      out.data ≠ [] ∧ (∀ c ∈ out.data, c ≠ ',') ∧
      (endsDotZero out.data = true → endsDotZeroTwice (midOf s) = true)) := by
  refine ⟨rfl, ?_, ?_⟩
  · intro s
    rw [sanitize_numstr_some, sanitize_numstr_some]
    have hm : midOf ⟨' ' :: (s.data ++ [' '])⟩ = midOf s := by
      unfold midOf
      rw [show (⟨' ' :: (s.data ++ [' '])⟩ : String).data = ' ' :: (s.data ++ [' '])
        from rfl, pyStripChars_surround_space]
    rw [hm]
  · intro s out h
    rw [sanitize_numstr_some] at h
    by_cases hz : endsDotZero (midOf s) = true
    · rw [if_pos hz] at h
      by_cases he : dropLast2 (midOf s) = []
      · rw [if_pos he] at h
        cases h
      · rw [if_neg he] at h
        have hout : out.data = dropLast2 (midOf s) := by
          have := congrArg String.data (Option.some.inj h).symm
          simpa using this
        refine ⟨by rw [hout]; exact he, ?_, ?_⟩
        · intro c hc
          have hmem : c ∈ midOf s := mem_of_mem_dropLast2 _ _ (hout ▸ hc)
          have := List.of_mem_filter hmem
          simpa using this
        · intro hez
          obtain ⟨t, ht⟩ := (endsDotZero_iff (midOf s)).mp hz
          have houtrev : out.data.reverse = t := by
            rw [hout]
            unfold dropLast2
            rw [List.reverse_reverse, ht]
            rfl
          obtain ⟨u, hu⟩ := (endsDotZero_iff out.data).mp hez
          rw [houtrev] at hu
          exact (endsDotZeroTwice_iff (midOf s)).mpr ⟨u, by rw [ht, hu]⟩
    · rw [if_neg hz] at h
      by_cases he : midOf s = []
      · rw [if_pos he] at h
        cases h
      · rw [if_neg he] at h
        have hout : out.data = midOf s := by
          have := congrArg String.data (Option.some.inj h).symm
          simpa using this
        refine ⟨by rw [hout]; exact he, ?_, ?_⟩
        · intro c hc
          have := List.of_mem_filter (hout ▸ hc)
          simpa using this
        · intro hez
          rw [hout] at hez
          exact absurd hez hz

/-- Witness for C6 (amended) at a concrete input. -/
theorem sanitize_numstr_amended_witness :
    ("1234" : String).data ≠ [] :=
  (sanitize_numstr_amended.2.2 "1,234.0" "1234" (by decide)).1

/-! ## Split / replace helper lemmas -/

theorem splitOnChar_nil (c : Char) : splitOnChar c [] = [[]] := rfl

theorem splitOnChar_cons (c a : Char) (t : List Char) :
    splitOnChar c (a :: t) =
      (if a = c then [] :: splitOnChar c t
       else
         match splitOnChar c t with
         | [] => [[a]]
         | x :: rest => (a :: x) :: rest) := rfl

theorem splitOnChar_ne_nil (c : Char) (l : List Char) : splitOnChar c l ≠ [] := by
  induction l with
  | nil => simp [splitOnChar_nil]
  | cons a t ih =>
    by_cases hac : a = c
    · simp [splitOnChar_cons, hac]
    · rw [splitOnChar_cons, if_neg hac]
      rcases h : splitOnChar c t with _ | ⟨x, rest⟩
      · simp
      · simp

theorem mem_splitOnChar_not_sep (c : Char) (l : List Char) :
    ∀ p ∈ splitOnChar c l, c ∉ p := by
  induction l with
  | nil =>
    intro p hp
    rw [splitOnChar_nil, List.mem_singleton] at hp
    simp [hp]
  | cons a t ih =>
    intro p hp
    by_cases hac : a = c
    · rw [splitOnChar_cons, if_pos hac] at hp
      rcases List.mem_cons.mp hp with rfl | hp'
      · simp
      · exact ih p hp'
    · rw [splitOnChar_cons, if_neg hac] at hp
      rcases h : splitOnChar c t with _ | ⟨x, rest⟩
      · exact absurd h (splitOnChar_ne_nil c t)
      · rw [h] at hp
        rcases List.mem_cons.mp hp with rfl | hp'
        · intro hmem
          rw [List.mem_cons] at hmem
          rcases hmem with heq | hmem'
          · exact hac heq.symm
          · exact ih x (by rw [h]; exact List.mem_cons_self x rest) hmem'
        · exact ih p (by rw [h]; exact List.mem_cons_of_mem x hp')

theorem replaceAllFuel_not_mem (c : Char) (r : List Char) :
    ∀ (fuel : Nat) (l : List Char), c ∉ l → replaceAllFuel [c] r fuel l = l := by
  intro fuel
  induction fuel with
  | zero => intro l _; rfl
  | succ n ih =>
    intro l h
    cases l with
    | nil => rfl
    | cons a t =>
      have hca : ¬ a = c := by
        intro heq
        exact h (heq ▸ List.mem_cons_self a t)
      have hcond : ¬ (([c] : List Char) ≠ [] ∧ ([c] : List Char).isPrefixOf (a :: t)) := by
        intro hcontra
        have := hcontra.2
        simp only [List.isPrefixOf, Bool.and_eq_true, beq_iff_eq] at this
        exact hca this.1.symm
      show (if ([c] : List Char) ≠ [] ∧ ([c] : List Char).isPrefixOf (a :: t) then
          r ++ replaceAllFuel [c] r n ((a :: t).drop ([c] : List Char).length)
        else a :: replaceAllFuel [c] r n t) = a :: t
      rw [if_neg hcond, ih t (fun hmem => h (List.mem_cons_of_mem a hmem))]

theorem replaceAll_not_mem (c : Char) (r : List Char) (l : List Char) (h : c ∉ l) :
    replaceAll [c] r l = l :=
  replaceAllFuel_not_mem c r l.length l h

/-! ## C10: filename geography parser -/

/-- C10: for a basename that splits (after removing ".csv.gz") into at
least four underscore-separated parts, the parser returns
(city, country) = (second part, first part); fewer parts yield
("Unknown", "Unknown"); in particular the multi-word country filename
"United_States_Hawaii_listings_13-June-2025.csv.gz" is parsed as
city = "States", country = "United". -/
theorem infer_geography_spec :
    (∀ f : String,
      (splitOnChar '_' (replaceAll ".csv.gz".data [] (basenameChars f.data))).length ≥ 4 →
      infer_geography_from_filename f =
        (⟨((splitOnChar '_' (replaceAll ".csv.gz".data [] (basenameChars f.data))).get? 1).getD []⟩,
         ⟨((splitOnChar '_' (replaceAll ".csv.gz".data [] (basenameChars f.data))).get? 0).getD []⟩)) ∧
    (∀ f : String,
      (splitOnChar '_' (replaceAll ".csv.gz".data [] (basenameChars f.data))).length < 4 →
      infer_geography_from_filename f = ("Unknown", "Unknown")) ∧
    infer_geography_from_filename "United_States_Hawaii_listings_13-June-2025.csv.gz" =
      ("States", "United") := by
  refine ⟨?_, ?_, by decide⟩
  · intro f h
    unfold infer_geography_from_filename
    rw [if_pos h]
    have h0 : 0 < (splitOnChar '_' (replaceAll ".csv.gz".data [] (basenameChars f.data))).length := by
      omega
    have h1 : 1 < (splitOnChar '_' (replaceAll ".csv.gz".data [] (basenameChars f.data))).length := by
      omega
    rw [List.get?_eq_get h0, List.get?_eq_get h1]
    simp only [Option.getD_some]
    rw [replaceAll_not_mem '_' [' '] _
        (mem_splitOnChar_not_sep '_' _ _ (List.get_mem _ _ _)),
      replaceAll_not_mem '_' [' '] _
        (mem_splitOnChar_not_sep '_' _ _ (List.get_mem _ _ _))]
  · intro f h
    unfold infer_geography_from_filename
    rw [if_neg (by omega)]

/-- Witness for C10 at the other docstring filename. -/
theorem infer_geography_spec_witness :
    infer_geography_from_filename "Argentina_Buenos Aires_listings_29-January-2025.csv.gz" =
      ("Buenos Aires", "Argentina") := by
  have h := infer_geography_spec.1
    "Argentina_Buenos Aires_listings_29-January-2025.csv.gz" (by decide)
  exact h.trans (by decide)

/-! ## C9: host-location parser -/

/-- The non-empty stripped comma-parts of a host_location string. -/
def partsOf (s : String) : List (List Char) :=
  ((splitOnChar ',' s.data).map pyStripChars).filter (fun p => ! p.isEmpty)

theorem parse_host_location_some (s : String) :
    parse_host_location (some s) =
      (if s = "" then ("Unknown", "Unknown")
       else if (partsOf s).length ≥ 2 then
         (⟨joinSep [',', ' '] (partsOf s).dropLast⟩, ⟨((partsOf s).getLast?).getD []⟩)
       else if (partsOf s).length = 1 then
         ("Unknown", ⟨((partsOf s).head?).getD []⟩)
       else ("Unknown", "Unknown")) :=
  rfl

/-- C9: parsing a host_location string splits on commas into non-empty
trimmed parts; with at least two parts the city is the ", "-joined
parts before the last and the country is the last part; exactly one
part yields ("Unknown", part); null, empty or all-empty-parts inputs
yield ("Unknown", "Unknown"); "Buenos Aires, Argentina" and "Argentina"
behave as the spec's scenario states. -/
theorem parse_host_location_spec :
    (parse_host_location none = ("Unknown", "Unknown")) ∧
    (parse_host_location (some "") = ("Unknown", "Unknown")) ∧
    (∀ s : String, ¬ (s = "") → (partsOf s).length ≥ 2 →
      parse_host_location (some s) =
        (⟨joinSep [',', ' '] (partsOf s).dropLast⟩, ⟨((partsOf s).getLast?).getD []⟩)) ∧
    (∀ s : String, ¬ (s = "") → (partsOf s).length = 1 →
      parse_host_location (some s) = ("Unknown", ⟨((partsOf s).head?).getD []⟩)) ∧
    (∀ s : String, partsOf s = [] →
      parse_host_location (some s) = ("Unknown", "Unknown")) ∧
    parse_host_location (some "Buenos Aires, Argentina") = ("Buenos Aires", "Argentina") ∧
    parse_host_location (some "Argentina") = ("Unknown", "Argentina") := by
  refine ⟨rfl, rfl, ?_, ?_, ?_, by decide, by decide⟩
  · intro s hne h2
    rw [parse_host_location_some, if_neg hne, if_pos h2]
  · intro s hne h1
    rw [parse_host_location_some, if_neg hne, if_neg (by omega), if_pos h1]
  · intro s hnil
    rw [parse_host_location_some]
    by_cases hne : s = ""
    · rw [if_pos hne]
    · rw [if_neg hne, if_neg (by simp [hnil]), if_neg (by simp [hnil])]

/-- Witness for C9 at a three-part input. -/
theorem parse_host_location_spec_witness :
    parse_host_location (some "a, b, c") = ("a, b", "c") := by
  have h := parse_host_location_spec.2.2.1 "a, b, c" (by decide) (by decide)
  exact h.trans (by decide)

/-! ## C8: reviews retry loop -/

/-- C8: the reviews load retries each file's SQL at most 3 times; the
error is raised exactly when all three attempts fail; a reconnect
happens at an attempt exactly when that attempt is reached (all earlier
attempts failed), fails with a connection-dropped error, and is not the
last attempt, and it is followed by the next attempt; the final raise is
preceded by a rollback of the last attempt. -/
theorem reviews_retry_loop_spec (outcome : Nat → AttemptOutcome) :
    ((runReviewsRetry outcome).2 = true ↔
      (outcome 0 ≠ .ok ∧ outcome 1 ≠ .ok ∧ outcome 2 ≠ .ok)) ∧
    ((REvent.reconnect 0 ∈ (runReviewsRetry outcome).1) ↔ outcome 0 = .connErr) ∧
    ((REvent.reconnect 1 ∈ (runReviewsRetry outcome).1) ↔
      (outcome 0 ≠ .ok ∧ outcome 1 = .connErr)) ∧
    (REvent.reconnect 2 ∉ (runReviewsRetry outcome).1) ∧
    (REvent.reconnect 0 ∈ (runReviewsRetry outcome).1 →
      REvent.execute 1 ∈ (runReviewsRetry outcome).1) ∧
    (REvent.reconnect 1 ∈ (runReviewsRetry outcome).1 →
      REvent.execute 2 ∈ (runReviewsRetry outcome).1) ∧
    ((runReviewsRetry outcome).2 = true →
      REvent.rollback 2 ∈ (runReviewsRetry outcome).1) := by
  rcases h0 : outcome 0 <;> rcases h1 : outcome 1 <;> rcases h2 : outcome 2 <;>
    simp [runReviewsRetry, reviewsRetryLoop, h0, h1, h2]

/-- Witness for C8: all-failing and reconnect-then-succeed oracles. -/
theorem reviews_retry_loop_spec_witness :
    (runReviewsRetry (fun _ => .otherErr)).2 = true ∧
    REvent.reconnect 0 ∈ (runReviewsRetry (fun n => if n = 0 then .connErr else .ok)).1 := by
  constructor
  · exact (reviews_retry_loop_spec (fun _ => .otherErr)).1.mpr
      ⟨by decide, by decide, by decide⟩
  · exact (reviews_retry_loop_spec (fun n => if n = 0 then .connErr else .ok)).2.1.mpr
      (by decide)

/-! ## Warehouse lemmas and concrete fixtures -/

theorem promote_dim_listings (w : Warehouse) :
    (promote w).dim_listings =
      mergeListings w.dim_listings (mergeSource w.dim_listings_staging) := rfl

theorem promote_id_map (w : Warehouse) :
    (promote w).dim_listing_id_map =
      w.dim_listing_id_map ++ w.dim_listings_staging.map mkIdMapRow := rfl

theorem promote_staging (w : Warehouse) :
    (promote w).dim_listings_staging = [] := rfl

/-- A staging row with only the raw listing id populated. -/
def mkStagingId (s : String) : StagingRow :=
  { listing_id := some s, host_id := none, host_name := none, host_city := none,
    host_country := none, property_country := none, property_city := none,
    property_neighbourhood := none, latitude := none, longitude := none,
    price := none, number_of_reviews := none, review_scores_rating := none,
    calculated_host_listings_count := none, is_local_host := none }

/-- The spec scenario's 23-digit, non-castable raw identifier. -/
def rawId23 : String := "12345678901234567890123"

/-- A warehouse holding exactly the spec scenario's staging row. -/
def warehouse23 : Warehouse := ⟨[], [], [mkStagingId rawId23]⟩

/-- The empty warehouse. -/
def emptyWarehouse : Warehouse := ⟨[], [], []⟩

/-! ## C2: merge-and-promote atomicity -/

/-- C2: the move script is all-or-nothing: if any of its three statements
fails, the script throws and the observable warehouse state is exactly
the initial one (dim_listings and dim_listing_id_map unchanged, staging
not truncated); if no statement fails, the upsert, the id-map append and
the staging truncate all take effect together. -/
theorem move_script_atomicity (w : Warehouse) (fails : MoveStep → Bool) :
    ((fails .merge = true ∨ fails .idmap = true ∨ fails .trunc = true) →
      (runMoveScript fails w).1 = .error () ∧ (runMoveScript fails w).2 = w) ∧
    ((∀ st, fails st = false) →
      (runMoveScript fails w).1 = .ok ((runMoveScript fails w).2) ∧
      (runMoveScript fails w).2.dim_listings =
        mergeListings w.dim_listings (mergeSource w.dim_listings_staging) ∧
      (runMoveScript fails w).2.dim_listing_id_map =
        w.dim_listing_id_map ++ w.dim_listings_staging.map mkIdMapRow ∧
      (runMoveScript fails w).2.dim_listings_staging = []) := by
  constructor
  · intro h
    rcases hm : fails .merge
    · rcases hi : fails .idmap
      · rcases ht : fails .trunc
        · rw [hm, hi, ht] at h
          simp at h
        · simp [runMoveScript, hm, hi, ht]
      · simp [runMoveScript, hm, hi]
    · simp [runMoveScript, hm]
  · intro h
    have hm := h .merge
    have hi := h .idmap
    have ht := h .trunc
    simp [runMoveScript, hm, hi, ht, applyMerge, applyIdMap, applyTrunc]

/-- Witness for C2: a failing id-map step leaves the scenario warehouse
untouched; the no-failure run truncates staging. -/
theorem move_script_atomicity_witness :
    (runMoveScript (fun st => decide (st = MoveStep.idmap)) warehouse23).2 = warehouse23 ∧
    (runMoveScript (fun _ => false) warehouse23).2.dim_listings_staging = [] := by
  constructor
  · exact ((move_script_atomicity warehouse23 (fun st => decide (st = MoveStep.idmap))).1
      (Or.inr (Or.inl (by decide)))).2
  · exact ((move_script_atomicity warehouse23 (fun _ => false)).2
      (fun st => rfl)).2.2.2

/-! ## C1: raw ids preserved in the id map regardless of cast -/

/-- C1: every staging row's raw identifier is inserted into
dim_listing_id_map (raw string verbatim, part1/part2/part3 equal to
characters 1-6, 7-12, 13-18) regardless of whether TRY_CAST to BIGINT
succeeds; every dim_listings row after promotion has a key from either
the old table or a castable staging id, so a row with a non-castable id
is excluded from dim_listings; the 23-digit scenario id fails the cast,
yields no dim_listings row, and still appears in the id map. -/
theorem merge_preserves_raw_ids :
    (∀ (w : Warehouse) (r : StagingRow), r ∈ w.dim_listings_staging →
      mkIdMapRow r ∈ (promote w).dim_listing_id_map ∧
      (mkIdMapRow r).listing_raw_id = r.listing_id ∧
      (∀ s : String, r.listing_id = some s →
        (mkIdMapRow r).part1 = some ⟨s.data.take 6⟩ ∧
        (mkIdMapRow r).part2 = some ⟨(s.data.drop 6).take 6⟩ ∧
        (mkIdMapRow r).part3 = some ⟨(s.data.drop 12).take 6⟩)) ∧
    (∀ (w : Warehouse) (d : DimRow), d ∈ (promote w).dim_listings →
      (∃ d0 ∈ w.dim_listings, d0.listing_id = d.listing_id) ∨
      (∃ r ∈ w.dim_listings_staging, ∃ s : String,
        r.listing_id = some s ∧ tryCastBigint s = some d.listing_id)) ∧
    (tryCastBigint rawId23 = none ∧
     (promote warehouse23).dim_listings = [] ∧
     (promote warehouse23).dim_listing_id_map =
       [⟨none, some rawId23, some "123456", some "789012", some "345678"⟩]) := by
  refine ⟨?_, ?_, by decide⟩
  · intro w r hr
    refine ⟨?_, rfl, ?_⟩
    · rw [promote_id_map]
      exact List.mem_append_right _ (List.mem_map_of_mem mkIdMapRow hr)
    · intro s hs
      simp [mkIdMapRow, sqlLeft, sqlSubstring, hs]
  · intro w d hd
    rw [promote_dim_listings] at hd
    unfold mergeListings at hd
    rcases List.mem_append.mp hd with hmap | hfilt
    · obtain ⟨d0, hd0, heq⟩ := List.mem_map.mp hmap
      left
      refine ⟨d0, hd0, ?_⟩
      rcases hfind : (mergeSource w.dim_listings_staging).find?
          (fun s0 => s0.listing_id == d0.listing_id) with _ | s0
      · rw [hfind] at heq
        rw [← heq]
      · rw [hfind] at heq
        rw [← heq]
        rfl
    · have hmem := List.mem_of_mem_filter hfilt
      right
      obtain ⟨r, hr, hsome⟩ := List.mem_filterMap.mp hmem
      rcases hb : r.listing_id.bind tryCastBigint with _ | k
      · rw [hb] at hsome
        cases hsome
      · rw [hb] at hsome
        have hd2 : mkDimRow k r = d := by simpa using hsome
        rcases hlid : r.listing_id with _ | s
        · rw [hlid] at hb
          cases hb
        · refine ⟨r, hr, s, hlid, ?_⟩
          rw [hlid] at hb
          have hk : tryCastBigint s = some k := by simpa using hb
          have hdk : d.listing_id = k := by
            rw [← hd2]
            rfl
          rw [hdk]
          exact hk

/-- Witness for C1 at the scenario staging row. -/
theorem merge_preserves_raw_ids_witness :
    mkIdMapRow (mkStagingId rawId23) ∈ (promote warehouse23).dim_listing_id_map ∧
    (mkIdMapRow (mkStagingId rawId23)).part1 = some ⟨rawId23.data.take 6⟩ := by
  have h := merge_preserves_raw_ids.1 warehouse23 (mkStagingId rawId23) (by decide)
  exact ⟨h.1, (h.2.2 rawId23 rfl).1⟩

/-! ## C3: idempotence of the listings load -/

theorem applyUpdate_listing_id (d s0 : DimRow) :
    (applyUpdate d s0).listing_id = d.listing_id := rfl

theorem applyUpdate_applyUpdate (d s0 : DimRow) :
    applyUpdate (applyUpdate d s0) s0 = applyUpdate d s0 := rfl

theorem applyUpdate_self (d : DimRow) : applyUpdate d d = d := rfl

theorem find?_key_self (s : List DimRow) (s0 : DimRow)
    (hs : (s.map (fun d => d.listing_id)).Nodup) (hmem : s0 ∈ s) :
    s.find? (fun x => x.listing_id == s0.listing_id) = some s0 := by
  induction s with
  | nil => cases hmem
  | cons a rest ih =>
    rw [List.map_cons, List.nodup_cons] at hs
    rcases List.mem_cons.mp hmem with rfl | hmem'
    · exact List.find?_cons_of_pos _ (by simp)
    · have hne : ¬ (a.listing_id == s0.listing_id) = true := by
        simp only [beq_iff_eq]
        intro heq
        exact hs.1 (by rw [heq]; exact List.mem_map_of_mem _ hmem')
      rw [@List.find?_cons_of_neg _ (fun x => x.listing_id == s0.listing_id) a rest hne]
      exact ih hs.2 hmem'

theorem mergeListings_idem (t s : List DimRow)
    (hs : (s.map (fun d => d.listing_id)).Nodup) :
    mergeListings (mergeListings t s) s = mergeListings t s := by
  have hall : ∀ s0 ∈ s,
      (mergeListings t s).any (fun d => d.listing_id == s0.listing_id) = true := by
    intro s0 hs0
    by_cases hin : t.any (fun d => d.listing_id == s0.listing_id) = true
    · obtain ⟨d, hd, hbeq⟩ := List.any_eq_true.mp hin
      apply List.any_eq_true.mpr
      refine ⟨(match s.find? (fun x => x.listing_id == d.listing_id) with
               | some s1 => applyUpdate d s1
               | none => d), ?_, ?_⟩
      · unfold mergeListings
        apply List.mem_append_left
        exact List.mem_map_of_mem _ hd
      · rcases hf : s.find? (fun x => x.listing_id == d.listing_id) with _ | s1
        · simp only [hf]
          exact hbeq
        · simp only [hf, applyUpdate_listing_id]
          exact hbeq
    · apply List.any_eq_true.mpr
      refine ⟨s0, ?_, by simp⟩
      unfold mergeListings
      apply List.mem_append_right
      apply List.mem_filter.mpr
      refine ⟨hs0, ?_⟩
      simp only [Bool.not_eq_true'] at hin ⊢
      exact Bool.not_eq_true _ ▸ hin
  have hmap : ∀ d1 ∈ mergeListings t s,
      (match s.find? (fun s0 => s0.listing_id == d1.listing_id) with
       | some s0 => applyUpdate d1 s0
       | none => d1) = d1 := by
    intro d1 hd1
    unfold mergeListings at hd1
    rcases List.mem_append.mp hd1 with hm | hf
    · obtain ⟨d0, hd0, heq⟩ := List.mem_map.mp hm
      rcases hfind : s.find? (fun x => x.listing_id == d0.listing_id) with _ | s1
      · rw [hfind] at heq
        rw [← heq]
        simp only [hfind]
      · rw [hfind] at heq
        rw [← heq]
        simp only [applyUpdate_listing_id, hfind]
        exact applyUpdate_applyUpdate d0 s1
    · have hmem := List.mem_of_mem_filter hf
      rw [find?_key_self s d1 hs hmem]
      exact applyUpdate_self d1
  have hfilter : s.filter
      (fun s0 => ! (mergeListings t s).any (fun d => d.listing_id == s0.listing_id)) = [] := by
    apply List.filter_eq_nil_iff.mpr
    intro s0 hs0
    simp [hall s0 hs0]
  show ((mergeListings t s).map (fun d =>
      match s.find? (fun s0 => s0.listing_id == d.listing_id) with
      | some s0 => applyUpdate d s0
      | none => d)) ++
    s.filter (fun s0 => ! (mergeListings t s).any (fun d => d.listing_id == s0.listing_id)) =
    mergeListings t s
  rw [hfilter, List.append_nil]
  exact (List.map_congr_left hmap).trans (List.map_id _)

theorem loadListingsFile_dim (fileRows : List StagingRow) (w : Warehouse) :
    (loadListingsFile fileRows w).dim_listings =
      mergeListings w.dim_listings (mergeSource fileRows) := rfl

/-- C3: loading the same listings file twice from the same warehouse
state yields the same dim_listings rows as loading it once, because the
promotion is an upsert keyed on listing_id (assuming the file's castable
listing ids are pairwise distinct, which the MERGE statement requires). -/
theorem listings_load_idempotent (w : Warehouse) (fileRows : List StagingRow)
    (h : ((mergeSource fileRows).map (fun d => d.listing_id)).Nodup) :
    (loadListingsFile fileRows (loadListingsFile fileRows w)).dim_listings =
      (loadListingsFile fileRows w).dim_listings := by
  rw [loadListingsFile_dim fileRows (loadListingsFile fileRows w),
    loadListingsFile_dim fileRows w]
  exact mergeListings_idem _ _ h

/-- Witness for C3 on a two-row file over the empty warehouse. -/
theorem listings_load_idempotent_witness :
    (loadListingsFile [mkStagingId "101", mkStagingId "202"]
        (loadListingsFile [mkStagingId "101", mkStagingId "202"] emptyWarehouse)).dim_listings =
      (loadListingsFile [mkStagingId "101", mkStagingId "202"] emptyWarehouse).dim_listings :=
  listings_load_idempotent emptyWarehouse [mkStagingId "101", mkStagingId "202"] (by decide)

/-! ## C4: staging batch loop isolates row failures -/

theorem stageRowsFuel_spec (bf : List StagingRow → Bool) (rf : StagingRow → Bool) :
    ∀ (fuel : Nat) (rows : List StagingRow), rows.length ≤ fuel →
      ((stageRowsFuel bf rf fuel rows).1.length +
        (stageRowsFuel bf rf fuel rows).2.length = rows.length) ∧
      (∀ r ∈ rows,
        r ∈ (stageRowsFuel bf rf fuel rows).1 ∨
        commaJoinRow r ∈ (stageRowsFuel bf rf fuel rows).2) ∧
      ((∀ b, bf b = false) → stageRowsFuel bf rf fuel rows = (rows, [])) := by
  intro fuel
  induction fuel with
  | zero =>
    intro rows h
    have hnil : rows = [] := List.length_eq_zero.mp (Nat.le_zero.mp h)
    subst hnil
    exact ⟨rfl, fun r hr => absurd hr (List.not_mem_nil r), fun _ => rfl⟩
  | succ n ih =>
    intro rows h
    cases rows with
    | nil => exact ⟨rfl, fun r hr => absurd hr (List.not_mem_nil r), fun _ => rfl⟩
    | cons x xs =>
      have hl : ((x :: xs).drop 500).length ≤ n := by
        rw [List.length_drop]
        simp only [List.length_cons] at h ⊢
        omega
      obtain ⟨ih1, ih2, ih3⟩ := ih ((x :: xs).drop 500) hl
      have htd := List.take_append_drop 500 (x :: xs)
      have hlen : ((x :: xs).take 500).length + ((x :: xs).drop 500).length =
          (x :: xs).length := by
        rw [← List.length_append, htd]
      by_cases hbf : bf ((x :: xs).take 500) = true
      · have hstep : stageRowsFuel bf rf (n + 1) (x :: xs) =
            ((((x :: xs).take 500).filter (fun r => ! rf r)) ++
              (stageRowsFuel bf rf n ((x :: xs).drop 500)).1,
             ((((x :: xs).take 500).filter (fun r => rf r)).map commaJoinRow) ++
              (stageRowsFuel bf rf n ((x :: xs).drop 500)).2) := by
          simp only [stageRowsFuel, hbf, if_true]
        refine ⟨?_, ?_, ?_⟩
        · rw [hstep]
          simp only [List.length_append, List.length_map]
          have hsplit := List.length_eq_length_filter_add
            (l := (x :: xs).take 500) (fun r => rf r)
          omega
        · intro r hr
          rw [← htd] at hr
          rcases List.mem_append.mp hr with hrb | hrr
          · by_cases hrf : rf r = true
            · right
              rw [hstep]
              exact List.mem_append_left _
                (List.mem_map_of_mem _ (List.mem_filter.mpr ⟨hrb, hrf⟩))
            · left
              rw [hstep]
              exact List.mem_append_left _ (List.mem_filter.mpr ⟨hrb, by simp [hrf]⟩)
          · rcases ih2 r hrr with h1 | h2
            · left
              rw [hstep]
              exact List.mem_append_right _ h1
            · right
              rw [hstep]
              exact List.mem_append_right _ h2
        · intro hnf
          rw [hnf _] at hbf
          cases hbf
      · have hstep : stageRowsFuel bf rf (n + 1) (x :: xs) =
            (((x :: xs).take 500) ++ (stageRowsFuel bf rf n ((x :: xs).drop 500)).1,
             (stageRowsFuel bf rf n ((x :: xs).drop 500)).2) := by
          rw [Bool.not_eq_true] at hbf
          simp only [stageRowsFuel, hbf, Bool.false_eq_true, if_false, List.nil_append]
        refine ⟨?_, ?_, ?_⟩
        · rw [hstep]
          simp only [List.length_append]
          omega
        · intro r hr
          rw [← htd] at hr
          rcases List.mem_append.mp hr with hrb | hrr
          · left
            rw [hstep]
            exact List.mem_append_left _ hrb
          · rcases ih2 r hrr with h1 | h2
            · left
              rw [hstep]
              exact List.mem_append_right _ h1
            · right
              rw [hstep]
              exact h2
        · intro hnf
          have hn := ih3 hnf
          rw [hstep, hn]
          simp [htd]

/-- C4: rows are submitted in batches of 500; a failed batch is retried
row by row; every input row either lands in the staging insert list or
its comma-joined form lands in the skipped-rows log (so no single-row
failure aborts the load), the two outputs account for every row, and
with no batch failures all rows are staged and the log stays empty. -/
theorem staging_rows_inserted_or_logged (batchFails : List StagingRow → Bool)
    (rowFails : StagingRow → Bool) (rows : List StagingRow) :
    ((stageRows batchFails rowFails rows).1.length +
      (stageRows batchFails rowFails rows).2.length = rows.length) ∧
    (∀ r ∈ rows,
      r ∈ (stageRows batchFails rowFails rows).1 ∨
      commaJoinRow r ∈ (stageRows batchFails rowFails rows).2) ∧
    ((∀ b, batchFails b = false) → stageRows batchFails rowFails rows = (rows, [])) :=
  stageRowsFuel_spec batchFails rowFails (rows.length + 1) rows (by omega)

/-- Witness for C4: a no-failure run stages the single row and logs
nothing. -/
theorem staging_rows_inserted_or_logged_witness :
    stageRows (fun _ => false) (fun _ => false) [mkStagingId "7"] =
      ([mkStagingId "7"], []) :=
  (staging_rows_inserted_or_logged (fun _ => false) (fun _ => false)
    [mkStagingId "7"]).2.2 (fun _ => rfl)

/-! ## C7: calendar weekly aggregation -/

/-- A calendar row whose date is a Sunday: day 6 = 1900-01-07. -/
def sundayRow : CalRow := { listing_id := "1", date := 6, available := "t", price := "100" }

/-- C7 counterexample: the claim says the bucket key week-start is the
Monday of the row's date, but for the Sunday day 6 (1900-01-07) the
aggregation produces the single bucket key (1, 7) — week-start 7, the
following Monday — while the Monday of that date is day 0. -/
theorem calendar_week_start_claim_false :
    (aggCalendar [1] [sundayRow]).map (fun b => (b.listing_id, b.week_start_date)) =
      [(1, 7)] ∧
    mondayOf sundayRow.date = 0 ∧ (7 : Nat) ≠ 0 := by
  decide

/-- C7 (amended): calendar rows are aggregated into one output row per
(listing id, week-start) bucket where the average price is the SQL mean
of the bucket's non-null prices and the available-day count is the
number of bucket rows flagged available; the week-start key is
`DATEADD(wk, DATEDIFF(wk, 0, d), 0)`, which equals the Monday of the
row's date for Monday-to-Saturday rows but the following Monday for
Sunday rows. -/
theorem calendar_weekly_aggregation_amended (dimKeys : List Int) (rows : List CalRow) :
    (((aggCalendar dimKeys rows).map
        (fun b => (b.listing_id, b.week_start_date))).Nodup) ∧
    (∀ b ∈ aggCalendar dimKeys rows,
      b.avg_price_per_week =
        avgPrice (bucketRows dimKeys rows b.listing_id b.week_start_date) ∧
      b.available_days_per_week =
        ((bucketRows dimKeys rows b.listing_id b.week_start_date).filter
          (fun r => calAvailable r)).length ∧
      b.week_end_date = b.week_start_date + 6) ∧
    (∀ n : Nat, weekStartSql n = if n % 7 = 6 then n + 1 else mondayOf n) := by
  refine ⟨?_, ?_, ?_⟩
  · unfold aggCalendar
    rw [List.map_map]
    have hid : ((fun b : FactCalRow => (b.listing_id, b.week_start_date)) ∘
        (fun kw : Int × Nat =>
          ({ listing_id := kw.1
             week_start_date := kw.2
             week_end_date := kw.2 + 6
             avg_price_per_week := avgPrice (bucketRows dimKeys rows kw.1 kw.2)
             available_days_per_week :=
               ((bucketRows dimKeys rows kw.1 kw.2).filter
                 (fun r => calAvailable r)).length } : FactCalRow))) = id := by
      funext kw
      rfl
    rw [hid, List.map_id]
    exact List.nodup_dedup _
  · intro b hb
    unfold aggCalendar at hb
    obtain ⟨kw, hkw, rfl⟩ := List.mem_map.mp hb
    exact ⟨rfl, rfl, rfl⟩
  · intro n
    unfold weekStartSql mondayOf
    by_cases h : n % 7 = 6 <;> simp [h] <;> omega

/-- Witness for C7 (amended) at the Sunday row. -/
theorem calendar_weekly_aggregation_amended_witness :
    weekStartSql 6 = (if 6 % 7 = 6 then 6 + 1 else mondayOf 6) ∧
    ((aggCalendar [1] [sundayRow]).head!).week_end_date =
      ((aggCalendar [1] [sundayRow]).head!).week_start_date + 6 := by
  constructor
  · exact (calendar_weekly_aggregation_amended [] []).2.2 6
  · have hne : aggCalendar [1] [sundayRow] ≠ [] := by
      intro hcontra
      have hlen : (aggCalendar [1] [sundayRow]).length = 1 := by decide
      rw [hcontra] at hlen
      cases hlen
    exact ((calendar_weekly_aggregation_amended [1] [sundayRow]).2.1 _
      (List.head!_mem_self hne)).2.2

end AirbnbETL
